import Mathlib

/-!
Shallow embedding of the `pandas` toy analytics repository.

Source files embedded here:
* `src/src/crypto_analysis.py` — `CryptoAnalyzer`: synthetic crypto price
  table generation (`generate_mock_data`) and descriptive statistics
  (`calculate_metrics`).
* `src/src/data_analysis.py` — `load_and_clean_data`, `filter_data`.

Modelling conventions.
* A pandas timestamp is a point on the daily grid; since `generate_mock_data`
  only ever steps in whole days from a fixed start instant, timestamps are
  integers counting days (the constant intra-day offset of `datetime.now()`
  is absorbed into the origin).
* Float arithmetic is modelled over `ℝ`.  The random draws of
  `np.random.normal` and the normal draw underlying `np.random.lognormal`
  are modelled as explicit sample streams `ℕ → ℝ` passed as parameters;
  `np.random.lognormal(10, 1, n)` returns `exp` of normal samples, so the
  volume entries are `Real.exp` of the sampled stream values.
* A raised Python exception is an `Except.error`; `PyError` distinguishes the
  explicit `ValueError` from the out-of-bounds `IndexError` of `.iloc`.
* A generic pandas `DataFrame` (for `data_analysis.py`) is a column-name list
  plus rows of `Option`-valued cells, `none` standing for a null/NaN entry.
-/

/-- A timestamp on the daily grid, counted in days. -/
abbrev Day := ℤ

/-- `pd.date_range(start, end, freq = one day)`: all points `start + i` (whole
days) that do not exceed `stop`; empty when `stop < start`.  In
`generate_mock_data` the two endpoints are a whole number of days apart, so
both are included. -/
def dateRangeD (start stop : Day) : List Day :=
  if stop < start then []
  else (List.range ((stop - start).toNat + 1)).map fun i : ℕ => start + (i : ℤ)

/-- `np.linspace a b n` evaluated at index `i`: `n` evenly spaced samples from
`a` to `b` inclusive; for `n ≤ 1` numpy yields the single value `a`. -/
noncomputable def linspace (a b : ℝ) (n : ℕ) (i : ℕ) : ℝ :=
  if n ≤ 1 then a else a + (b - a) * (i : ℝ) / ((n : ℝ) - 1)

/-- One row of the table built by `generate_mock_data`
(`crypto_analysis.py`, lines 67–73). -/
structure CryptoRow where
  fecha : Day
  precio : ℝ
  volumen : ℝ
  market_cap : ℝ
  trading_volume : ℝ

/-- The pandas DataFrame of `crypto_analysis.py`: the column labels of the
dict literal at lines 67–73 plus the rows. -/
structure CryptoFrame where
  columns : List String
  rows : List CryptoRow

/-- The column labels of the DataFrame literal (lines 68–72). -/
def cryptoColumns : List String :=
  ["fecha", "precio", "volumen", "market_cap", "trading_volume"]

/-- Row `i` of the table built by `generate_mock_data` over `n` dates
(lines 41–73): `prices = 20000 + trend + volatility` with
`trend = np.linspace 0 10000 n` and `volatility` the stream of
`np.random.normal(0, 1000)` samples; `volume` is `Real.exp` of the normal
sample stream underlying `np.random.lognormal(10, 1)`;
`market_cap = prices * volume * 1000`; `trading_volume = volume * prices`. -/
noncomputable def mockRow (n : ℕ) (volatility volNormal : ℕ → ℝ)
    (id : ℕ × Day) : CryptoRow :=
  let i := id.1
  let price := 20000 + linspace 0 10000 n i + volatility i
  let vol := Real.exp (volNormal i)
  { fecha := id.2
    precio := price
    volumen := vol
    market_cap := price * vol * 1000
    trading_volume := vol * price }

/-- `CryptoAnalyzer.generate_mock_data(days)` (lines 25–75).  `now` is the
current timestamp (`datetime.now()`); the dates run from `now - days` to
`now` at daily frequency, and the table holds one `mockRow` per entry of the
enumerated date range. -/
noncomputable def generate_mock_data (days : ℤ) (now : Day)
    (volatility volNormal : ℕ → ℝ) : CryptoFrame :=
  let dates := dateRangeD (now - days) now
  let rows := dates.enum.map (mockRow dates.length volatility volNormal)
  { columns := cryptoColumns, rows := rows }

/-- The `CryptoAnalyzer` object state: a symbol and an optional data table
(`self.data` starts as `None`). -/
structure CryptoAnalyzer where
  symbol : String
  data : Option CryptoFrame

/-- A raised Python exception at the metrics interface: the explicit
`ValueError` of `calculate_metrics`, or the `IndexError` that
`.iloc[-1]`/`.iloc[0]` raises on an empty series. -/
inductive PyError where
  | valueError : String → PyError
  | indexError : PyError
deriving DecidableEq

/-- The metrics dict built by `calculate_metrics` (lines 90–98), fields in
the order of the dict literal. -/
structure CryptoMetrics where
  precio_actual : ℝ
  precio_maximo : ℝ
  precio_minimo : ℝ
  volumen_promedio : ℝ
  volatilidad : ℝ
  retorno_total : ℝ
  market_cap_actual : ℝ

/-- `series.iloc[-1]`: the last element, raising `IndexError` when the series
is empty. -/
def ilocLast (l : List ℝ) : Except PyError ℝ :=
  match l.getLast? with
  | some x => Except.ok x
  | none => Except.error PyError.indexError

/-- `series.iloc[0]`: the first element, raising `IndexError` when the series
is empty. -/
def ilocFirst (l : List ℝ) : Except PyError ℝ :=
  match l.head? with
  | some x => Except.ok x
  | none => Except.error PyError.indexError

/-- `series.max()` on a nonempty series (pandas yields NaN on an empty one;
that case is unreachable in `calculate_metrics`, which fails on `.iloc[-1]`
first, and is mapped to the junk value 0 here). -/
noncomputable def seriesMax : List ℝ → ℝ
  | [] => 0
  | x :: xs => xs.foldl max x

/-- `series.min()`, with the same empty-series convention as `seriesMax`. -/
noncomputable def seriesMin : List ℝ → ℝ
  | [] => 0
  | x :: xs => xs.foldl min x

/-- `series.mean()`: sum over length (Lean's `x / 0 = 0` stands in for the
NaN of an empty mean, unreachable in `calculate_metrics`). -/
noncomputable def seriesMean (l : List ℝ) : ℝ := l.sum / (l.length : ℝ)

/-- `series.std()`: pandas sample standard deviation (`ddof = 1`),
`sqrt (Σ (x - mean)² / (n - 1))`; the NaN of `n ≤ 1` is mapped to 0 by
Lean's division convention. -/
noncomputable def seriesStd (l : List ℝ) : ℝ :=
  Real.sqrt ((l.map fun x => (x - seriesMean l) ^ 2).sum / ((l.length : ℝ) - 1))

/-- `CryptoAnalyzer.calculate_metrics` (lines 77–100): raise `ValueError`
when `self.data is None`; otherwise build the metrics dict, whose first
entry already evaluates `self.data['precio'].iloc[-1]` and therefore raises
`IndexError` on an empty table. -/
noncomputable def calculate_metrics (a : CryptoAnalyzer) :
    Except PyError CryptoMetrics :=
  match a.data with
  | none => Except.error (PyError.valueError "Primero debes generar o cargar datos")
  | some f =>
    let precios := f.rows.map CryptoRow.precio
    (ilocLast precios).bind fun pLast =>
    (ilocFirst precios).bind fun pFirst =>
    (ilocLast (f.rows.map CryptoRow.market_cap)).bind fun mLast =>
    Except.ok
      { precio_actual := pLast
        precio_maximo := seriesMax precios
        precio_minimo := seriesMin precios
        volumen_promedio := seriesMean (f.rows.map CryptoRow.volumen)
        volatilidad := seriesStd precios
        retorno_total := (pLast / pFirst - 1) * 100
        market_cap_actual := mLast }

/-- A row of a generic CSV-backed DataFrame (`data_analysis.py`): one
`Option`-valued cell per column, `none` standing for a null/NaN entry. -/
abbrev Row (V : Type) := List (Option V)

/-- A generic pandas DataFrame for `data_analysis.py`: column labels plus
rows of cells. -/
structure DFrame (V : Type) where
  cols : List String
  rows : List (Row V)
deriving DecidableEq

/-- `pd.DataFrame()`: the empty frame returned by the `except` branch of
`load_and_clean_data`. -/
def emptyDF (V : Type) : DFrame V := { cols := [], rows := [] }

/-- Helper for `drop_duplicates`: drop every element already seen (pandas
`DataFrame.drop_duplicates` keeps the first occurrence of each row; pandas
treats two null cells as equal when comparing rows, as does equality on
`Option`-valued cells here). -/
def dropDupSeen {α : Type} [DecidableEq α] : List α → List α → List α
  | _, [] => []
  | seen, x :: xs =>
    if x ∈ seen then dropDupSeen seen xs else x :: dropDupSeen (x :: seen) xs

/-- `df.drop_duplicates()` on the row list (line 20). -/
def drop_duplicates {α : Type} [DecidableEq α] (l : List α) : List α :=
  dropDupSeen [] l

/-- `df.dropna()` on the row list (line 22): keep only rows in which every
cell is non-null. -/
def dropna {V : Type} (rows : List (Row V)) : List (Row V) :=
  rows.filter fun r => r.all fun c => c.isSome

/-- `load_and_clean_data(file_path)` (`data_analysis.py`, lines 7–26).  The
file system and CSV parser are abstracted into `readCsv`, the semantics of
`pd.read_csv`: a parsed frame or a raised exception (message).  The single
`try/except` turns any failure into the empty frame; on success duplicates
and then null-containing rows are removed. -/
def load_and_clean_data {V : Type} [DecidableEq V]
    (readCsv : String → Except String (DFrame V)) (file_path : String) :
    DFrame V :=
  match readCsv file_path with
  | Except.ok df => { cols := df.cols, rows := dropna (drop_duplicates df.rows) }
  | Except.error _ => emptyDF V

/-- Cell of row `r` at column index `i`; `none` when out of range or null. -/
def getCell {V : Type} (r : Row V) (i : ℕ) : Option V := (r.get? i).join

/-- `df[c]` for row `r`: the cell in the column labelled `c` (the first
matching label, `KeyError` handled by the callers through `Option`). -/
def cellByName {V : Type} (f : DFrame V) (r : Row V) (c : String) : Option V :=
  match f.cols.findIdx? (· == c) with
  | some i => getCell r i
  | none => none

/-- The boolean series `df[column] == value` (line 106): `none` when the
column label is absent (Python raises `KeyError` there), else one comparison
bit per row; a null cell compares unequal to every value, as in pandas. -/
def condMask {V : Type} [DecidableEq V] (f : DFrame V) (c : String) (v : V) :
    Option (List Bool) :=
  (f.cols.findIdx? (· == c)).map fun i =>
    f.rows.map fun r => decide (getCell r i = some v)

/-- The loop of `filter_data` (lines 104–106): fold `mask &= (df[column] ==
value)` over the conditions, starting from the all-`True` series. -/
def filterMask {V : Type} [DecidableEq V] (f : DFrame V) :
    List (String × V) → List Bool → Option (List Bool)
  | [], m => some m
  | cv :: rest, m =>
    match condMask f cv.1 cv.2 with
    | some mc => filterMask f rest (List.zipWith and m mc)
    | none => none

/-- `df[mask]`: the rows whose mask bit is `True`, in order. -/
def selectMask {α : Type} : List α → List Bool → List α
  | [], _ => []
  | _ :: _, [] => []
  | x :: xs, b :: bs => if b then x :: selectMask xs bs else selectMask xs bs

/-- `filter_data(df, conditions)` (lines 92–107); `none` models the
`KeyError` raised when a condition names an absent column. -/
def filter_data {V : Type} [DecidableEq V] (f : DFrame V)
    (conditions : List (String × V)) : Option (DFrame V) :=
  (filterMask f conditions (f.rows.map fun _ => true)).map fun m =>
    { cols := f.cols, rows := selectMask f.rows m }

/-! Helper lemmas. -/

/-- `Forall` transported along a `map` whose image satisfies the predicate
pointwise. -/
theorem forall_map_of_forall {α β : Type} (f : α → β) (p : β → Prop)
    (h : ∀ a, p (f a)) : ∀ l : List α, (l.map f).Forall p := by
  intro l
  induction l with
  | nil => trivial
  | cons x xs ih =>
    rw [List.map_cons, List.forall_cons]
    exact ⟨h x, ih⟩

/-- The row list of `generate_mock_data`, unfolded. -/
theorem generate_mock_data_rows (days : ℤ) (now : Day)
    (volatility volNormal : ℕ → ℝ) :
    (generate_mock_data days now volatility volNormal).rows
      = (dateRangeD (now - days) now).enum.map
          (mockRow (dateRangeD (now - days) now).length volatility volNormal) :=
  rfl

/-- The `fecha` column of `generate_mock_data` is exactly the generated
date range. -/
theorem generate_mock_data_map_fecha (days : ℤ) (now : Day)
    (volatility volNormal : ℕ → ℝ) :
    (generate_mock_data days now volatility volNormal).rows.map CryptoRow.fecha
      = dateRangeD (now - days) now := by
  show ((dateRangeD (now - days) now).enum.map _).map CryptoRow.fecha = _
  rw [List.map_map]
  exact List.enum_map_snd (dateRangeD (now - days) now)

/-- The `precio` column of `generate_mock_data`, indexed over the date
range. -/
theorem generate_mock_data_map_precio (days : ℤ) (now : Day)
    (volatility volNormal : ℕ → ℝ) :
    (generate_mock_data days now volatility volNormal).rows.map CryptoRow.precio
      = (List.range (dateRangeD (now - days) now).length).map fun i =>
          20000 + linspace 0 10000 (dateRangeD (now - days) now).length i
            + volatility i := by
  show ((dateRangeD (now - days) now).enum.map _).map CryptoRow.precio = _
  rw [List.map_map, ← List.enum_map_fst (dateRangeD (now - days) now),
    List.map_map]
  rfl

/-- Length of the generated date range for a nonnegative day count. -/
theorem dateRangeD_length_sub (days now : ℤ) (h : 0 ≤ days) :
    (dateRangeD (now - days) now).length = days.toNat + 1 := by
  have hlt : ¬ now < now - days := by omega
  rw [dateRangeD, if_neg hlt]
  simp only [List.length_map, List.length_range]
  omega

/-- The generated date range always steps by exactly one day. -/
theorem dateRangeD_chain_succ (start stop : Day) :
    List.Chain' (fun a b : Day => b = a + 1) (dateRangeD start stop) := by
  rw [dateRangeD]
  split
  · exact List.chain'_nil
  · rw [List.chain'_map]
    rw [List.chain'_range_succ]
    intro m _
    push_cast
    ring

/-! Claim theorems for `crypto_analysis.py`. -/

/-- C1: in every row of every table produced by `generate_mock_data`, the
market cap column equals `price * volume * 1000` and the trading volume
column equals `volume * price`; both are point-wise functions of the price
and volume columns with no independent randomness. -/
theorem generate_mock_data_derived_columns (days : ℤ) (now : Day)
    (volatility volNormal : ℕ → ℝ) :
    ((generate_mock_data days now volatility volNormal).rows).Forall
      fun r => r.market_cap = r.precio * r.volumen * 1000
        ∧ r.trading_volume = r.volumen * r.precio := by
  rw [generate_mock_data_rows]
  exact forall_map_of_forall _ _ (fun id => ⟨rfl, rfl⟩) _

/-- C4: every row of every table produced by `generate_mock_data` has
`volume > 0`, by construction: the volume entry is the exponential of a
normal draw (`np.random.lognormal`). -/
theorem generate_mock_data_volume_pos (days : ℤ) (now : Day)
    (volatility volNormal : ℕ → ℝ) :
    ((generate_mock_data days now volatility volNormal).rows).Forall
      fun r => 0 < r.volumen := by
  rw [generate_mock_data_rows]
  refine forall_map_of_forall _ _ (fun id => ?_) _
  simp only [mockRow]
  exact Real.exp_pos _

/-- C5: the date column of every table produced by `generate_mock_data` is
strictly increasing with daily frequency: each consecutive pair of rows is
exactly one day apart. -/
theorem generate_mock_data_dates_daily (days : ℤ) (now : Day)
    (volatility volNormal : ℕ → ℝ) :
    List.Chain' (fun a b : Day => b = a + 1)
      ((generate_mock_data days now volatility volNormal).rows.map
        CryptoRow.fecha) := by
  rw [generate_mock_data_map_fecha]
  exact dateRangeD_chain_succ (now - days) now

/-- C3: for `days ≥ 0`, the table returned by `generate_mock_data days` has
one row per day of the generated daily date range — `days + 1` rows, the
date column being exactly that range — and exactly the five columns `fecha`
(date), `precio` (price), `volumen` (volume), `market_cap` and
`trading_volume`. -/
theorem generate_mock_data_shape (days : ℤ) (now : Day)
    (volatility volNormal : ℕ → ℝ) (h : 0 ≤ days) :
    (generate_mock_data days now volatility volNormal).rows.map CryptoRow.fecha
        = dateRangeD (now - days) now
      ∧ (generate_mock_data days now volatility volNormal).rows.length
        = days.toNat + 1
      ∧ (generate_mock_data days now volatility volNormal).columns
        = ["fecha", "precio", "volumen", "market_cap", "trading_volume"] := by
  refine ⟨generate_mock_data_map_fecha days now volatility volNormal, ?_, rfl⟩
  have hmap := congrArg List.length
    (generate_mock_data_map_fecha days now volatility volNormal)
  rw [List.length_map] at hmap
  rw [hmap]
  exact dateRangeD_length_sub days now h

/-- Witness for C3 at `days = 0`, `now = 0`, zero sample streams. -/
theorem generate_mock_data_shape_witness :
    (generate_mock_data 0 0 (fun _ => 0) (fun _ => 0)).rows.map CryptoRow.fecha
        = dateRangeD (0 - 0) 0
      ∧ (generate_mock_data 0 0 (fun _ => 0) (fun _ => 0)).rows.length
        = (0 : ℤ).toNat + 1
      ∧ (generate_mock_data 0 0 (fun _ => 0) (fun _ => 0)).columns
        = ["fecha", "precio", "volumen", "market_cap", "trading_volume"] :=
  generate_mock_data_shape 0 0 (fun _ => 0) (fun _ => 0) (by decide)

/-- C6: for `days ≥ 0`, the price column of `generate_mock_data days` is
`20000 + trend + noise` where over the `n = days + 1` dates the trend is
`np.linspace 0 10000 n` and the noise is the sampled normal stream; the
trend starts at `0` and (when there is more than one date) ends at
`10000`. -/
theorem generate_mock_data_price_formula (days : ℤ) (now : Day)
    (volatility volNormal : ℕ → ℝ) (h : 0 ≤ days) :
    ((generate_mock_data days now volatility volNormal).rows.map
        CryptoRow.precio
      = (List.range (days.toNat + 1)).map fun i =>
          20000 + linspace 0 10000 (days.toNat + 1) i + volatility i)
      ∧ linspace 0 10000 (days.toNat + 1) 0 = 0
      ∧ (1 ≤ days →
          linspace 0 10000 (days.toNat + 1) days.toNat = 10000) := by
  refine ⟨?_, ?_, ?_⟩
  · rw [generate_mock_data_map_precio days now volatility volNormal,
      dateRangeD_length_sub days now h]
  · rw [linspace]
    split
    · rfl
    · simp
  · intro h1
    have hd : 1 ≤ days.toNat := by omega
    have hne : ¬ days.toNat + 1 ≤ 1 := by omega
    rw [linspace, if_neg hne]
    have hcast : ((days.toNat : ℝ) + 1) - 1 = (days.toNat : ℝ) := by ring
    push_cast
    rw [hcast]
    have hz : (days.toNat : ℝ) ≠ 0 := Nat.cast_ne_zero.mpr (by omega)
    field_simp

/-- Witness for C6 at `days = 1`, `now = 0`, zero sample streams, the inner
endpoint hypothesis discharged as well. -/
theorem generate_mock_data_price_formula_witness :
    ((generate_mock_data 1 0 (fun _ => 0) (fun _ => 0)).rows.map
        CryptoRow.precio
      = (List.range ((1 : ℤ).toNat + 1)).map fun i =>
          20000 + linspace 0 10000 ((1 : ℤ).toNat + 1) i + (fun _ => (0 : ℝ)) i)
      ∧ linspace 0 10000 ((1 : ℤ).toNat + 1) 0 = 0
      ∧ linspace 0 10000 ((1 : ℤ).toNat + 1) (1 : ℤ).toNat = 10000 :=
  ⟨(generate_mock_data_price_formula 1 0 (fun _ => 0) (fun _ => 0)
      (by decide)).1,
   (generate_mock_data_price_formula 1 0 (fun _ => 0) (fun _ => 0)
      (by decide)).2.1,
   (generate_mock_data_price_formula 1 0 (fun _ => 0) (fun _ => 0)
      (by decide)).2.2 (by decide)⟩

/-- C2 (amended): the explicit `ValueError` of `calculate_metrics` is raised
exactly when the analyzer's data is `None`; whenever the data is a nonempty
table the metrics dictionary is returned without raising; but an empty table
makes the first metric's `.iloc[-1]` raise `IndexError`, so `None` is not
the only error condition. -/
theorem calculate_metrics_error_conditions (a : CryptoAnalyzer) :
    ((∃ msg, calculate_metrics a = Except.error (PyError.valueError msg))
        ↔ a.data = none)
      ∧ (∀ f, a.data = some f → f.rows ≠ [] →
          ∃ m, calculate_metrics a = Except.ok m)
      ∧ (∀ f, a.data = some f → f.rows = [] →
          calculate_metrics a = Except.error PyError.indexError) := by
  obtain ⟨sym, data⟩ := a
  cases data with
  | none =>
    refine ⟨⟨fun _ => rfl, fun _ => ⟨"Primero debes generar o cargar datos", rfl⟩⟩,
      ?_, ?_⟩ <;> intro f hf <;> exact absurd hf (by simp)
  | some f =>
    cases hr : f.rows with
    | nil =>
      have hempty : calculate_metrics ⟨sym, some f⟩
          = Except.error PyError.indexError := by
        simp only [calculate_metrics, hr, List.map_nil, ilocLast,
          List.getLast?]
        rfl
      refine ⟨⟨?_, ?_⟩, ?_, ?_⟩
      · rintro ⟨msg, hmsg⟩
        rw [hempty] at hmsg
        exact absurd (Except.error.inj hmsg) (by simp)
      · intro h
        exact absurd h (by simp)
      · intro g hg hne
        have hfg : f = g := Option.some.inj hg
        subst hfg
        exact absurd hr hne
      · intro g hg _
        have hfg : f = g := Option.some.inj hg
        subst hfg
        exact hempty
    | cons r rs =>
      have hlast : ∃ y,
          (CryptoRow.precio r :: rs.map CryptoRow.precio).getLast? = some y :=
        Option.ne_none_iff_exists'.mp (by simp)
      have hlastm : ∃ z,
          (CryptoRow.market_cap r :: rs.map CryptoRow.market_cap).getLast?
            = some z :=
        Option.ne_none_iff_exists'.mp (by simp)
      obtain ⟨y, hy⟩ := hlast
      obtain ⟨z, hz⟩ := hlastm
      have hok : ∃ m, calculate_metrics ⟨sym, some f⟩ = Except.ok m := by
        simp only [calculate_metrics, ilocLast, ilocFirst, hr, List.map_cons,
          hy, hz, List.head?_cons]
        exact ⟨_, rfl⟩
      obtain ⟨m, hm⟩ := hok
      refine ⟨⟨?_, ?_⟩, ?_, ?_⟩
      · rintro ⟨msg, hmsg⟩
        rw [hm] at hmsg
        exact absurd hmsg (by simp)
      · intro h
        exact absurd h (by simp)
      · intro g hg _
        have hfg : f = g := Option.some.inj hg
        subst hfg
        exact ⟨m, hm⟩
      · intro g hg hnil
        have hfg : f = g := Option.some.inj hg
        subst hfg
        rw [hr] at hnil
        exact absurd hnil (List.cons_ne_nil r rs)

/-- C2 counterexample: calling `generate_mock_data(-1)` (a negative day
count makes `pd.date_range` empty) leaves a table that is not `None`, yet
`calculate_metrics` raises `IndexError` on it — so "raises iff data is
None" fails as stated. -/
theorem calculate_metrics_error_without_none_data :
    (some (generate_mock_data (-1) 0 (fun _ => 0) (fun _ => 0))
        ≠ (none : Option CryptoFrame))
      ∧ calculate_metrics
          ⟨"BTC", some (generate_mock_data (-1) 0 (fun _ => 0) (fun _ => 0))⟩
        = Except.error PyError.indexError := by
  constructor
  · exact Option.some_ne_none _
  · rfl

/-- Witness for the amended C2 at a one-row table: the `ValueError` is not
raised (the data is not `None`) and the metrics dictionary is returned. -/
theorem calculate_metrics_error_conditions_witness :
    ((∃ msg, calculate_metrics
          ⟨"BTC", some ⟨cryptoColumns, [⟨0, 0, 0, 0, 0⟩]⟩⟩
        = Except.error (PyError.valueError msg))
      ↔ (⟨"BTC", some ⟨cryptoColumns, [⟨0, 0, 0, 0, 0⟩]⟩⟩ :
          CryptoAnalyzer).data = none)
    ∧ (∃ m, calculate_metrics
          ⟨"BTC", some ⟨cryptoColumns, [⟨0, 0, 0, 0, 0⟩]⟩⟩
        = Except.ok m) :=
  ⟨(calculate_metrics_error_conditions
      ⟨"BTC", some ⟨cryptoColumns, [⟨0, 0, 0, 0, 0⟩]⟩⟩).1,
   (calculate_metrics_error_conditions
      ⟨"BTC", some ⟨cryptoColumns, [⟨0, 0, 0, 0, 0⟩]⟩⟩).2.1
     ⟨cryptoColumns, [⟨0, 0, 0, 0, 0⟩]⟩ rfl (List.cons_ne_nil _ _)⟩

/-! Helper lemmas for `data_analysis.py`. -/

/-- `dropDupSeen` returns a sublist of its input. -/
theorem dropDupSeen_sublist {α : Type} [DecidableEq α] :
    ∀ (l seen : List α), List.Sublist (dropDupSeen seen l) l := by
  intro l
  induction l with
  | nil => intro seen; exact List.Sublist.refl []
  | cons x xs ih =>
    intro seen
    rw [dropDupSeen]
    split
    · exact (ih seen).cons x
    · exact (ih (x :: seen)).cons₂ x

/-- Nothing that `dropDupSeen` keeps was already seen. -/
theorem not_mem_seen_of_mem_dropDupSeen {α : Type} [DecidableEq α] :
    ∀ (l seen : List α) (a : α), a ∈ dropDupSeen seen l → a ∉ seen := by
  intro l
  induction l with
  | nil => intro seen a ha; exact absurd ha (by rw [dropDupSeen]; simp)
  | cons x xs ih =>
    intro seen a ha
    rw [dropDupSeen] at ha
    by_cases hx : x ∈ seen
    · rw [if_pos hx] at ha
      exact ih seen a ha
    · rw [if_neg hx] at ha
      rcases List.mem_cons.mp ha with hax | hax
      · rw [hax]; exact hx
      · intro hseen
        exact ih (x :: seen) a hax (List.mem_cons_of_mem x hseen)

/-- `dropDupSeen` yields pairwise-distinct elements. -/
theorem nodup_dropDupSeen {α : Type} [DecidableEq α] :
    ∀ (l seen : List α), (dropDupSeen seen l).Nodup := by
  intro l
  induction l with
  | nil => intro seen; rw [dropDupSeen]; exact List.nodup_nil
  | cons x xs ih =>
    intro seen
    rw [dropDupSeen]
    split
    · exact ih seen
    · refine List.nodup_cons.mpr ⟨?_, ih (x :: seen)⟩
      intro hmem
      exact not_mem_seen_of_mem_dropDupSeen xs (x :: seen) x hmem
        (List.mem_cons_self x seen)

/-! Claim theorems for `data_analysis.py`. -/

/-- C7: `load_and_clean_data` is a total function that propagates no
exception: any failure of loading is caught by the single try/except and
yields the empty DataFrame, and on success it returns the loaded table with
duplicate rows and then null-containing rows removed. -/
theorem load_and_clean_data_branches {V : Type} [DecidableEq V]
    (readCsv : String → Except String (DFrame V)) (file_path : String) :
    (∀ e, readCsv file_path = Except.error e →
        load_and_clean_data readCsv file_path = emptyDF V)
      ∧ (∀ df, readCsv file_path = Except.ok df →
          load_and_clean_data readCsv file_path
            = { cols := df.cols, rows := dropna (drop_duplicates df.rows) }) := by
  constructor
  · intro e he
    rw [load_and_clean_data, he]
  · intro df hdf
    rw [load_and_clean_data, hdf]

/-- Witness for C7: a reading failure yields the empty DataFrame. -/
theorem load_and_clean_data_branches_witness :
    load_and_clean_data (fun _ => Except.error "file not found")
        "datos.csv" = emptyDF ℕ :=
  (load_and_clean_data_branches (fun _ => Except.error "file not found")
    "datos.csv").1 "file not found" rfl

/-- C8: every DataFrame successfully returned by `load_and_clean_data`
contains no two identical rows, no null cell, and only rows of the loaded
CSV contents (in fact a sublist of them). -/
theorem load_and_clean_data_result_invariants {V : Type} [DecidableEq V]
    (readCsv : String → Except String (DFrame V)) (file_path : String)
    (df : DFrame V) (h : readCsv file_path = Except.ok df) :
    (load_and_clean_data readCsv file_path).rows.Nodup
      ∧ (∀ r ∈ (load_and_clean_data readCsv file_path).rows,
          ∀ c ∈ r, c.isSome)
      ∧ List.Sublist (load_and_clean_data readCsv file_path).rows df.rows := by
  rw [load_and_clean_data, h]
  refine ⟨?_, ?_, ?_⟩
  · exact (nodup_dropDupSeen df.rows []).filter _
  · intro r hr c hc
    have hall := (List.mem_filter.mp hr).2
    exact List.all_eq_true.mp hall c hc
  · exact (List.filter_sublist _).trans (dropDupSeen_sublist df.rows [])

/-- Witness for C8 on a concrete CSV with one duplicate and one null row. -/
theorem load_and_clean_data_result_invariants_witness :
    (load_and_clean_data
        (fun _ => Except.ok
          (DFrame.mk ["a"] [[some 1], [some 1], [none]] : DFrame ℕ))
        "datos.csv").rows.Nodup
      ∧ (∀ r ∈ (load_and_clean_data
            (fun _ => Except.ok
              (DFrame.mk ["a"] [[some 1], [some 1], [none]] : DFrame ℕ))
            "datos.csv").rows, ∀ c ∈ r, c.isSome)
      ∧ List.Sublist
          (load_and_clean_data
            (fun _ => Except.ok
              (DFrame.mk ["a"] [[some 1], [some 1], [none]] : DFrame ℕ))
            "datos.csv").rows
          (DFrame.mk ["a"] [[some 1], [some 1], [none]] : DFrame ℕ).rows :=
  load_and_clean_data_result_invariants
    (fun _ => Except.ok (DFrame.mk ["a"] [[some 1], [some 1], [none]]))
    "datos.csv" (DFrame.mk ["a"] [[some 1], [some 1], [none]]) rfl

/-- Pointwise conjunction of two boolean columns over the same rows. -/
theorem zipWith_and_map {α : Type} (g h : α → Bool) :
    ∀ l : List α, List.zipWith and (l.map g) (l.map h)
      = l.map fun r => g r && h r := by
  intro l
  induction l with
  | nil => rfl
  | cons x xs ih =>
    simp only [List.map_cons, List.zipWith_cons_cons, ih]

/-- Selecting by a mask computed pointwise from the rows is filtering. -/
theorem selectMask_map {α : Type} (p : α → Bool) :
    ∀ l : List α, selectMask l (l.map p) = l.filter p := by
  intro l
  induction l with
  | nil => rfl
  | cons x xs ih =>
    rw [List.map_cons, selectMask, List.filter_cons]
    by_cases hp : p x
    · rw [if_pos hp, if_pos hp, ih]
    · rw [if_neg hp, if_neg hp, ih]

/-- The folded mask of `filter_data`: starting from any pointwise mask, the
loop conjoins one equality test per condition, provided every named column
exists. -/
theorem filterMask_map {V : Type} [DecidableEq V] (f : DFrame V) :
    ∀ (conds : List (String × V)) (g : Row V → Bool),
      (∀ cv ∈ conds, (f.cols.findIdx? (· == cv.1)).isSome) →
      filterMask f conds (f.rows.map g)
        = some (f.rows.map fun r =>
            g r && conds.all fun cv => decide (cellByName f r cv.1 = some cv.2)) := by
  intro conds
  induction conds with
  | nil =>
    intro g _
    rw [filterMask]
    simp
  | cons cv rest ih =>
    intro g hall
    obtain ⟨i, hi⟩ := Option.isSome_iff_exists.mp
      (hall cv (List.mem_cons_self cv rest))
    rw [filterMask]
    have hmask : condMask f cv.1 cv.2
        = some (f.rows.map fun r => decide (getCell r i = some cv.2)) := by
      rw [condMask, hi, Option.map_some']
    rw [hmask]
    show filterMask f rest
        (List.zipWith and (f.rows.map g)
          (f.rows.map fun r => decide (getCell r i = some cv.2)))
      = _
    rw [zipWith_and_map]
    rw [ih _ fun c hc => hall c (List.mem_cons_of_mem cv hc)]
    congr 1
    apply List.map_congr_left
    intro r _
    have hcell : cellByName f r cv.1 = getCell r i := by
      rw [cellByName, hi]
    rw [List.all_cons, hcell, Bool.and_assoc]

/-- C9: when every column named by the conditions exists, `filter_data`
returns exactly the rows of `df` whose value in each named column equals the
given value — the conjunction of the equality conditions — in their original
order (and, the embedding being purely functional, `df` itself is left
unchanged). -/
theorem filter_data_conjunction {V : Type} [DecidableEq V] (f : DFrame V)
    (conditions : List (String × V))
    (h : ∀ cv ∈ conditions, (f.cols.findIdx? (· == cv.1)).isSome) :
    filter_data f conditions
      = some { cols := f.cols,
               rows := f.rows.filter fun r =>
                 conditions.all fun cv =>
                   decide (cellByName f r cv.1 = some cv.2) } := by
  rw [filter_data, filterMask_map f conditions (fun _ => true) h,
    Option.map_some']
  have hsel : selectMask f.rows
      (f.rows.map fun r => true
        && conditions.all fun cv => decide (cellByName f r cv.1 = some cv.2))
      = f.rows.filter fun r =>
          conditions.all fun cv => decide (cellByName f r cv.1 = some cv.2) := by
    have hmap : (f.rows.map fun r => true
        && conditions.all fun cv => decide (cellByName f r cv.1 = some cv.2))
        = f.rows.map fun r =>
            conditions.all fun cv => decide (cellByName f r cv.1 = some cv.2) := by
      apply List.map_congr_left
      intro r _
      rw [Bool.true_and]
    rw [hmap, selectMask_map]
  rw [hsel]

/-- Witness for C9 on a concrete two-column frame with two conditions. -/
theorem filter_data_conjunction_witness :
    filter_data (DFrame.mk ["a", "b"]
        [[some 1, some 2], [some 1, some 3], [none, some 2]] : DFrame ℕ)
        [("a", 1), ("b", 2)]
      = some { cols := ["a", "b"],
               rows := (DFrame.mk ["a", "b"]
                  [[some 1, some 2], [some 1, some 3], [none, some 2]] :
                  DFrame ℕ).rows.filter fun r =>
                 [("a", 1), ("b", 2)].all fun cv =>
                   decide (cellByName (DFrame.mk ["a", "b"]
                      [[some 1, some 2], [some 1, some 3], [none, some 2]])
                      r cv.1 = some cv.2) } :=
  filter_data_conjunction
    (DFrame.mk ["a", "b"] [[some 1, some 2], [some 1, some 3], [none, some 2]])
    [("a", 1), ("b", 2)] (by decide)
